import Mathlib

/- Verification of the layer and network contracts of a small CNN training
   library (source files layers.py and network.py).  Numeric entries are
   modelled over ℚ; the activation / cost / pooling functions supplied by the
   external function library are abstract parameters.  numpy arrays are
   modelled either in a typed form (Arr2 / Arr3 / Arr4: recorded dimensions
   plus a total entry function; entries outside the recorded dimensions are
   junk that no modelled computation reads) or, at the network level where
   values cross dynamic Python call boundaries, as flat row-major arrays
   (NDA) and tagged Python values (PyObj). -/

/-- Sum of f over 0, 1, ..., n-1 (models a numpy summation over a range). -/
def sumR (n : Nat) (f : Nat → ℚ) : ℚ := ((List.range n).map f).sum

/-- Flat row-major model of a numpy ndarray: shape plus flat data. -/
structure NDA where
  shape : List Nat
  v : Nat → ℚ

/-- ndarray.size -/
def NDA.size (x : NDA) : Nat := x.shape.prod

/-- ndarray.ndim -/
def NDA.ndim (x : NDA) : Nat := x.shape.length

/-- np.array([]) -/
def NDA.emptyArr : NDA := ⟨[0], fun _ => 0⟩

/-- ndarray.reshape: same flat data, new shape (valid when the sizes agree). -/
def NDA.reshape (x : NDA) (s : List Nat) : NDA := ⟨s, x.v⟩

/-- Elementwise product of two same-shaped ndarrays. -/
def NDA.elemMul (x y : NDA) : NDA := ⟨x.shape, fun i => x.v i * y.v i⟩

/-- Elementwise application of a scalar function (numpy broadcasting of the
elementwise functions supplied by the function library). -/
def NDA.mapQ (f : ℚ → ℚ) (x : NDA) : NDA := ⟨x.shape, fun i => f (x.v i)⟩

/-- A 2-dimensional ndarray: row and column counts plus entries. -/
structure Arr2 where
  r : Nat
  c : Nat
  v : Nat → Nat → ℚ

/-- A 3-dimensional ndarray. -/
structure Arr3 where
  d0 : Nat
  d1 : Nat
  d2 : Nat
  v : Nat → Nat → Nat → ℚ

/-- A 4-dimensional ndarray. -/
structure Arr4 where
  d0 : Nat
  d1 : Nat
  d2 : Nat
  d3 : Nat
  v : Nat → Nat → Nat → Nat → ℚ

def Arr2.shapeList (x : Arr2) : List Nat := [x.r, x.c]

def Arr3.shapeList (x : Arr3) : List Nat := [x.d0, x.d1, x.d2]

def Arr4.shapeList (x : Arr4) : List Nat := [x.d0, x.d1, x.d2, x.d3]

/-- numpy @ for 2-d arrays. -/
def matmul (x y : Arr2) : Arr2 :=
  ⟨x.r, y.c, fun i j => sumR x.c fun k => x.v i k * y.v k j⟩

/-- ndarray.T for 2-d arrays. -/
def Arr2.transpose (x : Arr2) : Arr2 := ⟨x.c, x.r, fun i j => x.v j i⟩

/-- Elementwise + of two same-shaped 2-d arrays. -/
def Arr2.add (x y : Arr2) : Arr2 := ⟨x.r, x.c, fun i j => x.v i j + y.v i j⟩

/-- Elementwise * of two same-shaped 2-d arrays. -/
def Arr2.elemMul (x y : Arr2) : Arr2 := ⟨x.r, x.c, fun i j => x.v i j * y.v i j⟩

/-- w - c * d entrywise (one in-place SGD update step). -/
def Arr2.scaleSub (w d : Arr2) (c : ℚ) : Arr2 := ⟨w.r, w.c, fun i j => w.v i j - c * d.v i j⟩

/-- np.sum over a whole 2-d array. -/
def Arr2.sumAll (x : Arr2) : ℚ := sumR x.r fun i => sumR x.c fun j => x.v i j

/-- Row-major flattening of a 2-d array into a flat ndarray. -/
def Arr2.toNDA (x : Arr2) : NDA := ⟨[x.r, x.c], fun idx => x.v (idx / x.c) (idx % x.c)⟩

/-- x.reshape((x.size, 1)): a flat array viewed as a column. -/
def NDA.reshapeCol (x : NDA) : Arr2 := ⟨x.size, 1, fun i _ => x.v i⟩

/-- Number of indices of the numpy basic slice start:stop:step over an axis
of size dim (positive step; the stop bound is clamped to dim). -/
def sliceLen (start stop step dim : Nat) : Nat := (min stop dim - start + step - 1) / step

/-- The numpy basic slice x[s0:e0:st0, s1:e1:st1] of a 2-d array. -/
def Arr2.slice (x : Arr2) (s0 e0 st0 s1 e1 st1 : Nat) : Arr2 :=
  ⟨sliceLen s0 e0 st0 x.r, sliceLen s1 e1 st1 x.c,
    fun i j => x.v (s0 + i * st0) (s1 + j * st1)⟩

/-- Python range(0, stop, step) for a positive step. -/
def blockStarts (stop step : Nat) : List Nat :=
  (List.range ((stop + step - 1) / step)).map (fun i => i * step)

/- ------------------------------------------------------------------ -/
/- FullyConnectedLayer (layers.py 46-83)                              -/
/- ------------------------------------------------------------------ -/

/-- FullyConnectedLayer(width, height, act_func): depth is fixed at 1; the
activation function and its derivative (obtained from the external function
library via get_derivative) are abstract elementwise functions. -/
structure FullyConnectedLayer where
  width : Nat
  height : Nat
  act_func : ℚ → ℚ
  der_act_func : ℚ → ℚ

/-- Layer.num_neurons_out = depth * height * width with depth = 1. -/
def FullyConnectedLayer.num_neurons_out (L : FullyConnectedLayer) : Nat :=
  1 * L.height * L.width

/-- layers.py 52-64: input_a = prev activation flattened to a column;
z = input_w @ input_a + input_b; a = act_func(z) elementwise.  The final
shape assert always holds in this model and is omitted. -/
def FullyConnectedLayer.feedforward (L : FullyConnectedLayer) (prev_a : NDA)
    (input_w input_b : Arr2) : Arr2 × Arr2 :=
  let input_a := prev_a.reshapeCol
  let z := (matmul input_w input_a).add input_b
  let a : Arr2 := ⟨z.r, z.c, fun i j => L.act_func (z.v i j)⟩
  (z, a)

/-- layers.py 66-83: der_input_w = delta_z @ input_a.T; der_input_b =
delta_z; assert prev.z.shape == prev.a.shape (modelled by the if);
delta_zl = (input_w.T @ delta_z).reshape(prev.z.shape) * der_act_func(prev.z). -/
def FullyConnectedLayer.backpropagate (L : FullyConnectedLayer) (prev_z prev_a : NDA)
    (input_w delta_z : Arr2) : Option (Arr2 × Arr2 × NDA) :=
  let input_a := prev_a.reshapeCol
  let der_input_w := matmul delta_z input_a.transpose
  let der_input_b := delta_z
  if prev_z.shape = prev_a.shape then
    let delta_zl := (((matmul input_w.transpose delta_z).toNDA.reshape prev_z.shape).elemMul
      (prev_z.mapQ L.der_act_func))
    some (der_input_w, der_input_b, delta_zl)
  else none

/- ------------------------------------------------------------------ -/
/- ConvolutionalLayer (layers.py 86-156)                              -/
/- ------------------------------------------------------------------ -/

/-- The declared geometry of a previous layer, as read by the convolutional
code (prev_layer.depth / height / width attributes). -/
structure LayerShape where
  depth : Nat
  height : Nat
  width : Nat

structure ConvolutionalLayer where
  depth : Nat
  height : Nat
  width : Nat
  kernel_size : Nat
  stride_length : Nat
  act_func : ℚ → ℚ
  der_act_func : ℚ → ℚ

/-- ConvolutionalLayer.__init__: stride_length is fixed at 1. -/
def ConvolutionalLayer.make (depth height width kernel_size : Nat)
    (act der : ℚ → ℚ) : ConvolutionalLayer :=
  ⟨depth, height, width, kernel_size, 1, act, der⟩

/-- scipy.signal.convolve for 3-d arrays, mode="full":
(a conv w)[n] = sum over m of a[m] * w[n - m]. -/
def convolveFull3 (a w : Arr3) : Arr3 :=
  ⟨a.d0 + w.d0 - 1, a.d1 + w.d1 - 1, a.d2 + w.d2 - 1, fun n0 n1 n2 =>
    sumR a.d0 fun m0 => sumR a.d1 fun m1 => sumR a.d2 fun m2 =>
      if m0 ≤ n0 ∧ n0 - m0 < w.d0 ∧ m1 ≤ n1 ∧ n1 - m1 < w.d1 ∧ m2 ≤ n2 ∧ n2 - m2 < w.d2
      then a.v m0 m1 m2 * w.v (n0 - m0) (n1 - m1) (n2 - m2) else 0⟩

/-- scipy.signal.convolve, mode="valid": the positions of the full
convolution where the kernel fully overlaps the first argument. -/
def convolveValid3 (a w : Arr3) : Arr3 :=
  ⟨a.d0 + 1 - w.d0, a.d1 + 1 - w.d1, a.d2 + 1 - w.d2, fun k0 k1 k2 =>
    (convolveFull3 a w).v (k0 + (w.d0 - 1)) (k1 + (w.d1 - 1)) (k2 + (w.d2 - 1))⟩

/-- input_w[r]: one output channel's 3-d weight tensor. -/
def Arr4.slice0 (w : Arr4) (r : Nat) : Arr3 := ⟨w.d1, w.d2, w.d3, fun t i j => w.v r t i j⟩

/-- layers.py 94-112: asserts on the weight and bias shapes (the prev
activation rank-3 assert is carried by the Arr3 type); then
z = np.array([scipy.signal.convolve(prev.a, fmap, "valid") for fmap in w]),
z[r] += b[r] (bias broadcast over the channel), a = vectorize(act_func)(z). -/
def ConvolutionalLayer.feedforward (L : ConvolutionalLayer) (prev : LayerShape)
    (prev_a : Arr3) (input_w : Arr4) (input_b : Arr2) : Option (Arr4 × Arr4) :=
  if input_w.shapeList = [L.depth, prev.depth, L.kernel_size, L.kernel_size]
      ∧ input_b.shapeList = [L.depth, 1] then
    let z : Arr4 := ⟨L.depth, prev_a.d0 + 1 - input_w.d1, prev_a.d1 + 1 - input_w.d2,
      prev_a.d2 + 1 - input_w.d3,
      fun r t i j => (convolveValid3 prev_a (input_w.slice0 r)).v t i j + input_b.v r 0⟩
    let a : Arr4 := ⟨z.d0, z.d1, z.d2, z.d3, fun r t i j => L.act_func (z.v r t i j)⟩
    some (z, a)
  else none

/-- The (t, r, m, n) iteration space of the propagated-error loops of
ConvolutionalLayer.backpropagate (layers.py 143-154). -/
def convBlocks (prev_depth depth prevH prevW k : Nat) : List (Nat × Nat × Nat × Nat) :=
  (List.range prev_depth).flatMap fun t =>
    (List.range depth).flatMap fun r =>
      (blockStarts prevH k).flatMap fun m =>
        (blockStarts prevW k).map fun n => (t, r, m, n)

/-- One dst_window += kernel[:rows, :cols] * src[i, j] step of the
propagated-error accumulation (layers.py 150-154), acting on the mutable
error tensor represented as a total function. -/
def convDzlStep (L : ConvolutionalLayer) (prev_a : Arr3) (input_w : Arr4) (delta_z : Arr4)
    (f : Nat → Nat → Nat → ℚ) (b : Nat × Nat × Nat × Nat) : Nat → Nat → Nat → ℚ :=
  fun t2 p q =>
    match b with
    | (t, r, m, n) =>
      let rows := min (m + L.kernel_size) prev_a.d1 - m
      let cols := min (n + L.kernel_size) prev_a.d2 - n
      if t2 = t ∧ m ≤ p ∧ p - m < rows ∧ n ≤ q ∧ q - n < cols then
        f t2 p q + input_w.v r t (p - m) (q - n)
          * delta_z.v r t (m / L.kernel_size) (n / L.kernel_size)
      else f t2 p q

/-- layers.py 114-156: assert delta_z.shape[0] == depth; der_input_w by
window products of the input feature map against the error map sliced by
[v:self.height:stride, h:self.width:stride] (the same slice on both); bias
gradient = np.sum(delta_z[r]); delta_zl accumulated block by block. -/
def ConvolutionalLayer.backpropagate (L : ConvolutionalLayer) (prev : LayerShape)
    (prev_a : Arr3) (input_w : Arr4) (delta_z : Arr4) : Option (Arr4 × Arr2 × Arr3) :=
  if delta_z.d0 = L.depth then
    let der_input_w : Arr4 := ⟨input_w.d0, input_w.d1, input_w.d2, input_w.d3,
      fun r t h v =>
        if t < prev.depth ∧ r < L.depth ∧ h < L.kernel_size ∧ v < L.kernel_size then
          let src : Arr2 := ⟨prev_a.d1, prev_a.d2, fun i j => prev_a.v t i j⟩
          let err : Arr2 := ⟨delta_z.d2, delta_z.d3, fun i j => delta_z.v r t i j⟩
          let src_window := src.slice v L.height L.stride_length h L.width L.stride_length
          let err_window := err.slice v L.height L.stride_length h L.width L.stride_length
          (src_window.elemMul err_window).sumAll
        else 0⟩
    let der_input_b : Arr2 := ⟨L.depth, 1, fun r _ =>
      sumR delta_z.d1 fun t => sumR delta_z.d2 fun i => sumR delta_z.d3 fun j =>
        delta_z.v r t i j⟩
    let delta_zl : Arr3 := ⟨prev_a.d0, prev_a.d1, prev_a.d2,
      (convBlocks prev.depth L.depth prev.height prev.width L.kernel_size).foldl
        (convDzlStep L prev_a input_w delta_z) (fun _ _ _ => 0)⟩
    some (der_input_w, der_input_b, delta_zl)
  else none

/- ------------------------------------------------------------------ -/
/- PollingLayer (layers.py 159-233)                                   -/
/- ------------------------------------------------------------------ -/

structure PollingLayer where
  depth : Nat
  height : Nat
  width : Nat
  window_size : Nat
  stride_length : Nat
  poll_func : Arr2 → ℚ
  der_poll_func : Arr2 → Arr2

/-- PollingLayer.__init__: stride_length is fixed at window_size. -/
def PollingLayer.make (depth height width window_size : Nat)
    (poll : Arr2 → ℚ) (der : Arr2 → Arr2) : PollingLayer :=
  ⟨depth, height, width, window_size, window_size, poll, der⟩

/-- layers.py 167-197.  The isinstance(prev, ConvolutionalLayer) assert is
carried by the prev argument type and the rank-4 assert by the Arr4 type;
the remaining asserts (matching depth, empty weights and biases, window
dividing the declared fmap size, and every loop window having full
window_size x window_size shape inside the stored activation) are the
condition of the if.  A window_size of 0 makes the Python loops fail and is
also sent to none.  The written entries are z[i][j] = poll_func(window at
(i*window_size, j*window_size)); a is z itself (self.a = self.z). -/
def PollingLayer.feedforward (L : PollingLayer) (prev : ConvolutionalLayer)
    (prev_a : Arr4) (input_w input_b : NDA) : Option (Arr3 × Arr3) :=
  if prev.depth = L.depth ∧ input_w.size = 0 ∧ input_b.size = 0
      ∧ L.window_size ≠ 0 ∧ prev.height % L.window_size = 0
      ∧ (∀ m ∈ blockStarts prev.height L.window_size, m + L.window_size ≤ prev_a.d2)
      ∧ (∀ n ∈ blockStarts prev.width L.window_size, n + L.window_size ≤ prev_a.d3) then
    let z : Arr3 := ⟨L.depth, L.height, L.width, fun r i j =>
      if r < min prev.depth L.depth ∧ i * L.window_size < prev.height
          ∧ j * L.window_size < prev.width then
        L.poll_func ⟨L.window_size, L.window_size,
          fun i2 j2 => prev_a.v r 0 (i * L.window_size + i2) (j * L.window_size + j2)⟩
      else 0⟩
    some (z, z)
  else none

/-- The (t, m, n) iteration space of the PollingLayer.backpropagate loops
(layers.py 223-231): t ranges over zip(range(prev.depth), range(depth)). -/
def pollBlocks (count H W ws : Nat) : List (Nat × Nat × Nat) :=
  (List.range count).flatMap fun t =>
    (blockStarts H ws).flatMap fun m =>
      (blockStarts W ws).map fun n => (t, m, n)

/-- One in-place dst_window[:] *= der_poll_func(src_window) step of
PollingLayer.backpropagate, acting on the mutable upsampled error tensor
represented as a total function. -/
def pollBpStep (L : PollingLayer) (prev_a : Arr4)
    (g : Nat → Nat → Nat → Nat → ℚ) (b : Nat × Nat × Nat) : Nat → Nat → Nat → Nat → ℚ :=
  fun t2 o p q =>
    match b with
    | (t, m, n) =>
      if t2 = t ∧ o = 0 ∧ m ≤ p ∧ p < m + L.window_size ∧ n ≤ q ∧ q < n + L.window_size then
        g t2 o p q * (L.der_poll_func ⟨L.window_size, L.window_size,
          fun i j => prev_a.v t 0 (m + i) (n + j)⟩).v (p - m) (q - n)
      else g t2 o p q

/-- layers.py 199-233: asserts (depth match, empty weights, delta_z shape);
delta_zl = np.kron(delta_z, np.ones((ws, ws))) expanded on axis 1, shape
asserted against (prev.depth, 1, prev.height, prev.width); then each
window_size x window_size block is multiplied in place by
der_poll_func(original window of prev.a); weight and bias gradients are
empty arrays. -/
def PollingLayer.backpropagate (L : PollingLayer) (prev : ConvolutionalLayer)
    (prev_a : Arr4) (input_w : NDA) (delta_z : Arr3) : Option (NDA × NDA × Arr4) :=
  if prev.depth = L.depth ∧ input_w.size = 0
      ∧ delta_z.shapeList = [L.depth, L.height, L.width] ∧ L.window_size ≠ 0
      ∧ ([delta_z.d0 * 1, 1, delta_z.d1 * L.window_size, delta_z.d2 * L.window_size]
          : List Nat) = [prev.depth, 1, prev.height, prev.width]
      ∧ (∀ m ∈ blockStarts prev.height L.window_size, m + L.window_size ≤ prev_a.d2)
      ∧ (∀ n ∈ blockStarts prev.width L.window_size, n + L.window_size ≤ prev_a.d3) then
    let der_input_w := NDA.emptyArr
    let der_input_b := NDA.emptyArr
    let kron : Arr3 := ⟨delta_z.d0 * 1, delta_z.d1 * L.window_size, delta_z.d2 * L.window_size,
      fun t p q => delta_z.v t (p / L.window_size) (q / L.window_size) * 1⟩
    let dzl0 : Arr4 := ⟨kron.d0, 1, kron.d1, kron.d2, fun t _ p q => kron.v t p q⟩
    let final := (pollBlocks (min prev.depth L.depth) prev.height prev.width
        L.window_size).foldl (pollBpStep L prev_a) dzl0.v
    some (der_input_w, der_input_b, ⟨dzl0.d0, dzl0.d1, dzl0.d2, dzl0.d3, final⟩)
  else none

/- ------------------------------------------------------------------ -/
/- Network level (network.py)                                         -/
/- ------------------------------------------------------------------ -/

/-- The Python exceptions the modelled code can raise. -/
inductive PyErr where
  | attributeError
  | typeError
  | assertionError
  | notImplementedError
  | zeroDivisionError
  | indexError
  deriving DecidableEq

/-- A Python value at a dynamic positional call site: a plain ndarray, a
2-d parameter array, or a layer object carrying its stored z and a. -/
inductive PyObj where
  | ndarray (x : NDA)
  | matrix (w : Arr2)
  | layerObj (z a : NDA)

/-- Attribute lookup value.a: only layer objects carry an a attribute;
reading it from an ndarray raises AttributeError. -/
def PyObj.attrA : PyObj → Except PyErr NDA
  | .layerObj _ a => .ok a
  | _ => .error .attributeError

/-- Attribute lookup value.z. -/
def PyObj.attrZ : PyObj → Except PyErr NDA
  | .layerObj z _ => .ok z
  | _ => .error .attributeError

/-- Using a value as a 2-d parameter array in matrix arithmetic. -/
def PyObj.asMatrix : PyObj → Except PyErr Arr2
  | .matrix w => .ok w
  | _ => .error .typeError

/-- The dynamic positional call layer.feedforward(a1, a2, a3): the method
(layers.py 52) declares exactly three parameters, so any other arity raises
TypeError; with three arguments the body runs, first reading
prev_layer.a. -/
def FullyConnectedLayer.feedforwardCall (L : FullyConnectedLayer) (args : List PyObj) :
    Except PyErr (Arr2 × Arr2) :=
  match args with
  | [prevArg, wArg, bArg] => do
    let a ← prevArg.attrA
    let w ← wArg.asMatrix
    let b ← bArg.asMatrix
    .ok (L.feedforward a w b)
  | _ => .error .typeError

/-- The dynamic positional call layer.backpropagate(a1, ..., ak): the method
(layers.py 66) declares exactly three parameters, so any other arity raises
TypeError. -/
def FullyConnectedLayer.backpropagateCall (L : FullyConnectedLayer) (args : List PyObj) :
    Except PyErr (Arr2 × Arr2 × NDA) :=
  match args with
  | [prevArg, wArg, dzArg] => do
    let pa ← prevArg.attrA
    let w ← wArg.asMatrix
    let dz ← dzArg.asMatrix
    let pz ← prevArg.attrZ
    match L.backpropagate pz pa w dz with
    | some out => .ok out
    | none => .error .assertionError
  | _ => .error .typeError

/-- The network: the ordered fully connected layers (the only kind the
constructor admits), their parameter arrays, the cost derivative, and the
mutable per-layer z / a slots (including the input layer's). -/
structure NeuralNetwork where
  layers : List FullyConnectedLayer
  input_weights : List Arr2
  input_biases : List Arr2
  der_cost_func : NDA → NDA → NDA
  input_z : NDA
  input_a : NDA
  layer_z : List NDA
  layer_a : List NDA

/-- The feedforward chain of network.py 43-49: for each layer the code
passes prev_layer.a (a plain ndarray) as the first positional argument of
layer.feedforward. -/
def ffGo : List (FullyConnectedLayer × Arr2 × Arr2) → NDA → List (NDA × NDA) →
    List (NDA × NDA) × Option PyErr
  | [], _, coll => (coll.reverse, none)
  | (L, w, b) :: rest, prevA, coll =>
    match L.feedforwardCall [PyObj.ndarray prevA, PyObj.matrix w, PyObj.matrix b] with
    | .error e => (coll.reverse, some e)
    | .ok (z, a) => ffGo rest a.toNDA ((z.toNDA, a.toNDA) :: coll)

/-- network.py 32-49: input_layer.z = np.array([]); input_layer.a = x; then
the chain of layer.feedforward(prev_layer.a, weights, biases) calls.  The
returned pair is the mutated network object together with the exception, if
one was raised. -/
def NeuralNetwork.feedforward (net : NeuralNetwork) (x : NDA) :
    NeuralNetwork × Option PyErr :=
  let net1 := { net with input_z := NDA.emptyArr, input_a := x }
  let res := ffGo (net1.layers.zip (net1.input_weights.zip net1.input_biases)) x []
  ({ net1 with
      layer_z := res.1.map Prod.fst ++ net1.layer_z.drop res.1.length,
      layer_a := res.1.map Prod.snd ++ net1.layer_a.drop res.1.length }, res.2)

def fcDefault : FullyConnectedLayer := ⟨0, 0, id, id⟩

def arr2Zero (r c : Nat) : Arr2 := ⟨r, c, fun _ _ => 0⟩

/-- The reverse walk of network.py 71-79: for each layer index i (from the
last layer to the first) the code calls
layer.backpropagate(input_z, input_a, input_w, delta_zlp) — four positional
arguments. -/
def bpWalkGo (net : NeuralNetwork) : List Nat → NDA → List (Nat × Arr2 × Arr2) →
    Except PyErr (List (Nat × Arr2 × Arr2))
  | [], _, acc => .ok acc
  | i :: rest, delta, acc =>
    let L := net.layers.getD i fcDefault
    let w := net.input_weights.getD i (arr2Zero 0 0)
    let pz := if i = 0 then net.input_z else net.layer_z.getD (i - 1) NDA.emptyArr
    let pa := if i = 0 then net.input_a else net.layer_a.getD (i - 1) NDA.emptyArr
    match L.backpropagateCall [PyObj.ndarray pz, PyObj.ndarray pa, PyObj.matrix w,
        PyObj.ndarray delta] with
    | .error e => .error e
    | .ok (dw, db, dzl) => bpWalkGo net rest dzl ((i, dw, db) :: acc)

/-- d_der_ws / d_der_bs lookup by layer index. -/
def lookupAcc (res : List (Nat × Arr2 × Arr2)) (i : Nat) : Arr2 × Arr2 :=
  match res.find? (fun p => p.1 == i) with
  | some p => p.2
  | none => (arr2Zero 0 0, arr2Zero 0 0)

/-- The per-batch loop of network.py 61-89: for each observation run
feedforward, form the output error delta = der_cost(a, y) * der_act(z),
walk the layers in reverse, accumulate; after the batch divide by the
original batch length (ZeroDivisionError when it is 0) and update. -/
def bpBatch (n0 : Nat) (eta : ℚ) : NeuralNetwork → List (NDA × NDA) →
    List Arr2 → List Arr2 → NeuralNetwork × Option PyErr
  | net, [], dW, dB =>
    if n0 = 0 then (net, some .zeroDivisionError)
    else
      ({ net with
          input_weights :=
            List.zipWith (fun w d => w.scaleSub d (eta / (n0 : ℚ))) net.input_weights dW,
          input_biases :=
            List.zipWith (fun b d => b.scaleSub d (eta / (n0 : ℚ))) net.input_biases dB },
        none)
  | net, (x, y) :: rest, dW, dB =>
    let step := net.feedforward x
    match step.2 with
    | some e => (step.1, some e)
    | none =>
      let net1 := step.1
      match net1.layers.getLast?, net1.layer_a.getLast?, net1.layer_z.getLast? with
      | some L, some aL, some zL =>
        let delta := (net1.der_cost_func aL y).elemMul (zL.mapQ L.der_act_func)
        match bpWalkGo net1 (List.range net1.layers.length).reverse delta [] with
        | .error e => (net1, some e)
        | .ok res =>
          bpBatch n0 eta net1 rest
            (dW.mapIdx fun i w => w.add (lookupAcc res i).1)
            (dB.mapIdx fun i b => b.add (lookupAcc res i).2)
      | _, _, _ => (net1, some .indexError)

/-- network.py 51-89. -/
def NeuralNetwork.backpropagate (net : NeuralNetwork) (batch : List (NDA × NDA))
    (eta : ℚ) : NeuralNetwork × Option PyErr :=
  let dW0 := net.input_weights.map fun w => arr2Zero w.r w.c
  let dB0 := net.input_biases.map fun b => arr2Zero b.r b.c
  bpBatch batch.length eta net batch dW0 dB0

/-- The batch partition of network.py 111. -/
def chunk {α : Type} (l : List α) (k : Nat) : List (List α) :=
  (blockStarts l.length k).map fun j => (l.drop j).take k

/-- Sequential per-batch training; an exception aborts the loop. -/
def trainBatches : NeuralNetwork → List (List (NDA × NDA)) → ℚ →
    NeuralNetwork × Option PyErr
  | net, [], _ => (net, none)
  | net, b :: rest, eta =>
    let step := net.backpropagate b eta
    match step.2 with
    | some e => (step.1, some e)
    | none => trainBatches step.1 rest eta

/-- The epoch loop of network.py 105-113; the in-place np.random.shuffle is
an oracle permutation per epoch, threaded across epochs. -/
def trainEpochs : Nat → Nat → NeuralNetwork → List (NDA × NDA) → Nat → ℚ →
    (Nat → List (NDA × NDA) → List (NDA × NDA)) → NeuralNetwork × Option PyErr
  | 0, _, net, _, _, _, _ => (net, none)
  | Nat.succ k, i, net, inputs, bs, eta, shuffler =>
    let shuffled := shuffler i inputs
    let step := trainBatches net (chunk shuffled bs) eta
    match step.2 with
    | some e => (step.1, some e)
    | none => trainEpochs k (i + 1) step.1 shuffled bs eta shuffler

/-- network.py 92-113: assert eta > 0; then len(inputs) % batch_size (a
ZeroDivisionError when batch_size is 0) is asserted to be 0; only then the
epoch loop runs.  The network is returned unchanged when an assert fires. -/
def train (net : NeuralNetwork) (inputs : List (NDA × NDA)) (num_epochs batch_size : Nat)
    (eta : ℚ) (shuffler : Nat → List (NDA × NDA) → List (NDA × NDA)) :
    NeuralNetwork × Option PyErr :=
  if ¬ 0 < eta then (net, some .assertionError)
  else if batch_size = 0 then (net, some .zeroDivisionError)
  else if inputs.length % batch_size ≠ 0 then (net, some .assertionError)
  else trainEpochs num_epochs 0 net inputs batch_size eta shuffler

/- ------------------------------------------------------------------ -/
/- NeuralNetwork.__init__ (network.py 19-30)                          -/
/- ------------------------------------------------------------------ -/

/-- The four concrete layer classes, as seen by the exact type test
type(layer) is FullyConnectedLayer of network.py 23. -/
inductive LayerDef where
  | inputL (height width : Nat)
  | fullyConnected (width height : Nat)
  | convolutional (depth height width kernel_size : Nat)
  | polling (depth height width window_size : Nat)

/-- Layer.num_neurons_out = depth * height * width (depth 1 for the input
and fully connected kinds). -/
def LayerDef.num_neurons_out : LayerDef → Nat
  | .inputL h w => 1 * h * w
  | .fullyConnected w h => 1 * h * w
  | .convolutional d h w _ => d * h * w
  | .polling d h w _ => d * h * w

def LayerDef.isFullyConnected : LayerDef → Bool
  | .fullyConnected _ _ => true
  | _ => false

/-- The parameters of one np.random.normal(mean, std, size) call made by
NeuralNetwork.__init__: the mean, the fan-in n such that the requested
standard deviation is the real number 1 / sqrt(n) (recorded symbolically by
its radicand, as 1 / np.sqrt(prev.num_neurons_out) is irrational), and the
requested shape. -/
structure GaussCall where
  mean : ℚ
  stdInvSqrtOf : Nat
  rows : Nat
  cols : Nat

/-- network.py 21-30, with the global numpy random stream modelled as an
oracle: call index ↦ requested Gaussian parameters ↦ sampled entries.
Every fully connected layer gets one weight draw and one bias draw; any
other layer kind raises NotImplementedError. -/
def initGo (rng : Nat → GaussCall → Nat → Nat → ℚ) :
    LayerDef → List LayerDef → Nat → Except PyErr (List Arr2 × List Arr2)
  | _, [], _ => .ok ([], [])
  | prev, l :: rest, k =>
    match l with
    | .fullyConnected w h =>
      let nout := (LayerDef.fullyConnected w h).num_neurons_out
      let fanin := prev.num_neurons_out
      let wArr : Arr2 := ⟨nout, fanin, rng k ⟨0, fanin, nout, fanin⟩⟩
      let bArr : Arr2 := ⟨nout, 1, rng (k + 1) ⟨0, fanin, nout, 1⟩⟩
      match initGo rng (LayerDef.fullyConnected w h) rest (k + 2) with
      | .ok (ws, bs) => .ok (wArr :: ws, bArr :: bs)
      | .error e => .error e
    | _ => .error .notImplementedError

/-- network.py 19-30: the parameter construction of NeuralNetwork.__init__
(the per-layer input_weights / input_biases mappings). -/
def NeuralNetwork.paramsInit (input_layer : LayerDef) (layers : List LayerDef)
    (rng : Nat → GaussCall → Nat → Nat → ℚ) : Except PyErr (List Arr2 × List Arr2) :=
  initGo rng input_layer layers 0

/-- The fan-in of each layer: the num_neurons_out of the layer before it. -/
def fanIns (prev : LayerDef) : List LayerDef → List Nat
  | [] => []
  | l :: rest => prev.num_neurons_out :: fanIns l rest

/- ------------------------------------------------------------------ -/
/- Spec-side definition for the convolutional forward claim            -/
/- ------------------------------------------------------------------ -/

/-- The claim's version of the convolutional forward pre-activation,
written from the spec's words: valid-mode CROSS-CORRELATION of each output
channel's weight tensor against the entire input stack, plus the channel
bias broadcast over the feature map.  It is compared against the code's
convolveValid3-based z. -/
def crossCorrelationZ (prev_a : Arr3) (input_w : Arr4) (input_b : Arr2) : Arr4 :=
  ⟨input_w.d0, prev_a.d0 + 1 - input_w.d1, prev_a.d1 + 1 - input_w.d2,
    prev_a.d2 + 1 - input_w.d3,
    fun r t i j =>
      (sumR input_w.d1 fun p => sumR input_w.d2 fun q => sumR input_w.d3 fun s =>
        prev_a.v (t + p) (i + q) (j + s) * input_w.v r p q s) + input_b.v r 0⟩

/- ------------------------------------------------------------------ -/
/- Helper predicates for the pooling backward fold                     -/
/- ------------------------------------------------------------------ -/

/-- Whether the block b = (t, m, n) of the pooling backward loops touches
position (t2, o, p, q) of the upsampled error tensor. -/
def pollCoversB (ws : Nat) (b : Nat × Nat × Nat) (t2 o p q : Nat) : Bool :=
  decide (t2 = b.1 ∧ o = 0 ∧ b.2.1 ≤ p ∧ p < b.2.1 + ws ∧ b.2.2 ≤ q ∧ q < b.2.2 + ws)

/-- The multiplicative factor the block b applies at position (p, q): the
matching entry of der_poll_func of the original pre-pooled window. -/
def pollFactor (L : PollingLayer) (prev_a : Arr4) (b : Nat × Nat × Nat) (p q : Nat) : ℚ :=
  (L.der_poll_func ⟨L.window_size, L.window_size,
    fun i j => prev_a.v b.1 0 (b.2.1 + i) (b.2.2 + j)⟩).v (p - b.2.1) (q - b.2.2)

/- ------------------------------------------------------------------ -/
/- Concrete data used by the witnesses and counterexamples             -/
/- ------------------------------------------------------------------ -/

def exLayer : FullyConnectedLayer := ⟨3, 1, id, id⟩

def exNet : NeuralNetwork :=
  { layers := [exLayer],
    input_weights := [⟨3, 4, fun _ _ => 1⟩],
    input_biases := [⟨3, 1, fun _ _ => 0⟩],
    der_cost_func := fun a _ => a,
    input_z := NDA.emptyArr,
    input_a := NDA.emptyArr,
    layer_z := [NDA.emptyArr],
    layer_a := [NDA.emptyArr] }

def exX : NDA := ⟨[4], fun i => (i : ℚ)⟩

def exY : NDA := ⟨[3], fun _ => 1⟩

def exL4 : FullyConnectedLayer := ⟨2, 1, id, id⟩

def exPrev4 : NDA := ⟨[2], fun i => (i : ℚ)⟩

def exW4 : Arr2 := ⟨1, 2, fun _ j => (j : ℚ) + 1⟩

def exDz4 : Arr2 := ⟨1, 1, fun _ _ => 3⟩

def exPrevShape : LayerShape := ⟨1, 1, 1⟩

def exA3 : Arr3 := ⟨1, 2, 2, fun m0 m1 m2 => if m0 = 0 ∧ m1 = 0 ∧ m2 = 0 then 1 else 0⟩

def exW3 : Arr4 := ⟨1, 1, 2, 2, fun r t i j => if r = 0 ∧ t = 0 ∧ i = 0 ∧ j = 0 then 1 else 0⟩

def exB3 : Arr2 := ⟨1, 1, fun _ _ => 0⟩

def exConvL : ConvolutionalLayer := ConvolutionalLayer.make 1 1 1 2 id id

def exConvL5 : ConvolutionalLayer := ConvolutionalLayer.make 1 2 2 1 id id

def exPrevShape5 : LayerShape := ⟨1, 2, 2⟩

def exA5 : Arr3 := ⟨1, 2, 2, fun _ i j => (i : ℚ) + 2 * (j : ℚ)⟩

def exW5 : Arr4 := ⟨1, 1, 1, 1, fun _ _ _ _ => 1⟩

def exDz5 : Arr4 := ⟨1, 1, 2, 2, fun _ _ i j => (i : ℚ) - (j : ℚ)⟩

def exConvL10 : ConvolutionalLayer := ConvolutionalLayer.make 1 2 2 1 id id

def exPollL10 : PollingLayer :=
  PollingLayer.make 1 2 2 1 (fun w => w.v 0 0) (fun w => w)

def exConvL6 : ConvolutionalLayer := ConvolutionalLayer.make 1 2 2 1 id id

def exPollL6 : PollingLayer :=
  PollingLayer.make 1 2 2 1 (fun w => w.v 0 0) (fun w => w)

def exA6 : Arr4 := ⟨1, 1, 2, 2, fun _ _ i j => (i : ℚ) + 3 * (j : ℚ)⟩

def exDz6 : Arr3 := ⟨1, 2, 2, fun _ i j => (i : ℚ) * 5 + (j : ℚ)⟩

/- ------------------------------------------------------------------ -/
/- Helper lemmas                                                       -/
/- ------------------------------------------------------------------ -/

theorem sumR_zero_fun (n : Nat) : sumR n (fun _ => (0 : ℚ)) = 0 := by
  simp [sumR]

theorem sumR_succ (n : Nat) (f : Nat → ℚ) : sumR (n + 1) f = sumR n f + f n := by
  simp [sumR, List.range_succ]

theorem sumR_eq_sum (n : Nat) (f : Nat → ℚ) : sumR n f = Finset.sum (Finset.range n) f := by
  induction n with
  | zero => simp [sumR]
  | succ k ih => rw [sumR_succ, ih, Finset.sum_range_succ]

theorem sumR_congr {n : Nat} {f g : Nat → ℚ} (h : ∀ i, i < n → f i = g i) :
    sumR n f = sumR n g := by
  rw [sumR_eq_sum, sumR_eq_sum]
  exact Finset.sum_congr rfl (fun i hi => h i (Finset.mem_range.mp hi))

theorem sumR_one (f : Nat → ℚ) : sumR 1 f = f 0 := by
  have h := sumR_succ 0 f
  simpa [sumR] using h

theorem sumR_ite_const (n : Nat) (P : Prop) [Decidable P] (f : Nat → ℚ) :
    sumR n (fun i => if P then f i else 0) = if P then sumR n f else 0 := by
  by_cases h : P <;> simp [h, sumR_zero_fun]

theorem sumR_window (N y k : Nat) (g : Nat → ℚ) (h : y + k ≤ N) :
    sumR N (fun m => if y ≤ m ∧ m - y < k then g m else 0) = sumR k fun q => g (y + q) := by
  rw [sumR_eq_sum, sumR_eq_sum]
  have hset : Finset.filter (fun m => y ≤ m ∧ m - y < k) (Finset.range N)
      = Finset.Ico y (y + k) := by
    ext m
    simp only [Finset.mem_filter, Finset.mem_range, Finset.mem_Ico]
    omega
  rw [← Finset.sum_filter, hset, Finset.sum_Ico_eq_sum_range]
  have hk : y + k - y = k := by omega
  rw [hk]

/- ------------------------------------------------------------------ -/
/- Claim theorems                                                      -/
/- ------------------------------------------------------------------ -/

/-- Claim C4: for a FullyConnectedLayer and a previous layer with
prev.z.shape == prev.a.shape, backpropagate returns der_W = delta_z ·
a_prev^T (the outer product with the flattened previous activation),
der_b = delta_z, and the propagated error (W^T · delta_z) reshaped to
prev.z.shape and elementwise-multiplied by der_act_func(prev.z). -/
theorem C4_fc_backpropagate (L : FullyConnectedLayer) (prev_z prev_a : NDA)
    (input_w delta_z : Arr2)
    (hshape : prev_z.shape = prev_a.shape)
    (hcol : delta_z.c = 1)
    (hr : input_w.r = delta_z.r)
    (hc : input_w.c = prev_a.size) :
    ∃ der_w der_b dzl,
      L.backpropagate prev_z prev_a input_w delta_z = some (der_w, der_b, dzl)
        ∧ der_w.r = delta_z.r ∧ der_w.c = prev_a.size
        ∧ (∀ i j, der_w.v i j = delta_z.v i 0 * prev_a.v j)
        ∧ der_b = delta_z
        ∧ dzl.shape = prev_z.shape
        ∧ (∀ i, dzl.v i =
            (sumR input_w.r fun k2 => input_w.v k2 i * delta_z.v k2 0)
              * L.der_act_func (prev_z.v i)) := by
  unfold FullyConnectedLayer.backpropagate
  rw [if_pos hshape]
  refine ⟨_, _, _, rfl, rfl, rfl, ?_, rfl, rfl, ?_⟩
  · intro i j
    simp [matmul, Arr2.transpose, NDA.reshapeCol, hcol, sumR_one]
  · intro i
    simp [NDA.elemMul, NDA.reshape, NDA.mapQ, Arr2.toNDA, matmul, Arr2.transpose, hcol,
      Nat.div_one, Nat.mod_one]

theorem C4_witness :
    exPrev4.shape = exPrev4.shape ∧ exDz4.c = 1 ∧ exW4.r = exDz4.r ∧ exW4.c = exPrev4.size
      ∧ (∃ der_w der_b dzl,
          exL4.backpropagate exPrev4 exPrev4 exW4 exDz4 = some (der_w, der_b, dzl)
            ∧ der_w.r = exDz4.r ∧ der_w.c = exPrev4.size
            ∧ (∀ i j, der_w.v i j = exDz4.v i 0 * exPrev4.v j)
            ∧ der_b = exDz4
            ∧ dzl.shape = exPrev4.shape
            ∧ (∀ i, dzl.v i =
                (sumR exW4.r fun k2 => exW4.v k2 i * exDz4.v k2 0)
                  * exL4.der_act_func (exPrev4.v i))) :=
  ⟨rfl, rfl, rfl, by decide,
    C4_fc_backpropagate exL4 exPrev4 exPrev4 exW4 exDz4 rfl rfl rfl (by decide)⟩

/-- Claim C7: after a successful feedforward, z and a have the same shape
and a is the elementwise activation of z, for each layer kind (for the
polling layer no activation is applied: a is z itself, i.e. the elementwise
identity). -/
theorem C7_z_a_contract :
    (∀ (L : FullyConnectedLayer) (prev_a : NDA) (w b : Arr2),
        (L.feedforward prev_a w b).1.shapeList = (L.feedforward prev_a w b).2.shapeList
          ∧ ∀ i j, (L.feedforward prev_a w b).2.v i j
              = L.act_func ((L.feedforward prev_a w b).1.v i j))
    ∧ (∀ (L : ConvolutionalLayer) (prev : LayerShape) (prev_a : Arr3)
          (input_w : Arr4) (input_b : Arr2),
        (input_w.shapeList = [L.depth, prev.depth, L.kernel_size, L.kernel_size]
            ∧ input_b.shapeList = [L.depth, 1]) →
          ∃ z a, L.feedforward prev prev_a input_w input_b = some (z, a)
            ∧ z.shapeList = a.shapeList
            ∧ ∀ r t i j, a.v r t i j = L.act_func (z.v r t i j))
    ∧ (∀ (L : PollingLayer) (prev : ConvolutionalLayer) (prev_a : Arr4)
          (input_w input_b : NDA),
        (prev.depth = L.depth ∧ input_w.size = 0 ∧ input_b.size = 0
            ∧ L.window_size ≠ 0 ∧ prev.height % L.window_size = 0
            ∧ (∀ m ∈ blockStarts prev.height L.window_size,
                m + L.window_size ≤ prev_a.d2)
            ∧ (∀ n ∈ blockStarts prev.width L.window_size,
                n + L.window_size ≤ prev_a.d3)) →
          ∃ z a, L.feedforward prev prev_a input_w input_b = some (z, a)
            ∧ z.shapeList = a.shapeList ∧ a = z) := by
  refine ⟨?_, ?_, ?_⟩
  · intro L prev_a w b
    exact ⟨rfl, fun i j => rfl⟩
  · intro L prev prev_a input_w input_b h
    unfold ConvolutionalLayer.feedforward
    rw [if_pos h]
    exact ⟨_, _, rfl, rfl, fun r t i j => rfl⟩
  · intro L prev prev_a input_w input_b h
    unfold PollingLayer.feedforward
    rw [if_pos h]
    exact ⟨_, _, rfl, rfl, rfl⟩

theorem C7_witness :
    (exW3.shapeList = [exConvL.depth, exPrevShape.depth, exConvL.kernel_size,
          exConvL.kernel_size] ∧ exB3.shapeList = [exConvL.depth, 1])
      ∧ (∃ z a, exConvL.feedforward exPrevShape exA3 exW3 exB3 = some (z, a)
          ∧ z.shapeList = a.shapeList
          ∧ ∀ r t i j, a.v r t i j = exConvL.act_func (z.v r t i j))
      ∧ (exConvL6.depth = exPollL6.depth ∧ NDA.emptyArr.size = 0 ∧ NDA.emptyArr.size = 0
          ∧ exPollL6.window_size ≠ 0 ∧ exConvL6.height % exPollL6.window_size = 0
          ∧ (∀ m ∈ blockStarts exConvL6.height exPollL6.window_size,
              m + exPollL6.window_size ≤ exA6.d2)
          ∧ (∀ n ∈ blockStarts exConvL6.width exPollL6.window_size,
              n + exPollL6.window_size ≤ exA6.d3))
      ∧ (∃ z a, exPollL6.feedforward exConvL6 exA6 NDA.emptyArr NDA.emptyArr = some (z, a)
          ∧ z.shapeList = a.shapeList ∧ a = z) :=
  ⟨by decide, C7_z_a_contract.2.1 exConvL exPrevShape exA3 exW3 exB3 (by decide),
    by decide, C7_z_a_contract.2.2 exPollL6 exConvL6 exA6 NDA.emptyArr NDA.emptyArr (by decide)⟩

/-- Claim C8: train fails on its preconditions (eta ≤ 0, or dataset size not
divisible by batch_size) before any batch is processed, leaving the network
unchanged; with a nonzero batch_size the failure is the assertion error (a
zero batch_size fails at the modulo itself with a ZeroDivisionError). -/
theorem C8_train_preconditions (net : NeuralNetwork) (inputs : List (NDA × NDA))
    (num_epochs batch_size : Nat) (eta : ℚ)
    (shuffler : Nat → List (NDA × NDA) → List (NDA × NDA))
    (h : eta ≤ 0 ∨ inputs.length % batch_size ≠ 0) :
    (train net inputs num_epochs batch_size eta shuffler).1 = net
      ∧ ((train net inputs num_epochs batch_size eta shuffler).2).isSome = true
      ∧ (eta ≤ 0 →
          (train net inputs num_epochs batch_size eta shuffler).2
            = some PyErr.assertionError)
      ∧ (0 < eta → batch_size ≠ 0 →
          (train net inputs num_epochs batch_size eta shuffler).2
            = some PyErr.assertionError) := by
  unfold train
  by_cases hp : 0 < eta
  · rw [if_neg (not_not_intro hp)]
    by_cases hbs : batch_size = 0
    · rw [if_pos hbs]
      refine ⟨rfl, rfl, ?_, ?_⟩
      · intro he; exact absurd hp (not_lt.mpr he)
      · intro _ hb; exact absurd hbs hb
    · have hlen : inputs.length % batch_size ≠ 0 := by
        rcases h with h | h
        · exact absurd hp (not_lt.mpr h)
        · exact h
      rw [if_neg hbs, if_pos hlen]
      exact ⟨rfl, rfl, fun he => absurd hp (not_lt.mpr he), fun _ _ => rfl⟩
  · rw [if_pos hp]
    exact ⟨rfl, rfl, fun _ => rfl, fun hpos => absurd hpos hp⟩

theorem C8_witness :
    ((-1 : ℚ) ≤ 0 ∨ ([] : List (NDA × NDA)).length % 5 ≠ 0)
      ∧ (train exNet [] 1 5 (-1) (fun _ l => l)).1 = exNet
      ∧ ((train exNet [] 1 5 (-1) (fun _ l => l)).2).isSome = true
      ∧ ((-1 : ℚ) ≤ 0 →
          (train exNet [] 1 5 (-1) (fun _ l => l)).2 = some PyErr.assertionError)
      ∧ (0 < (-1 : ℚ) → (5 : Nat) ≠ 0 →
          (train exNet [] 1 5 (-1) (fun _ l => l)).2 = some PyErr.assertionError) :=
  ⟨Or.inl (by norm_num),
    (C8_train_preconditions exNet [] 1 5 (-1) (fun _ l => l) (Or.inl (by norm_num))).1,
    (C8_train_preconditions exNet [] 1 5 (-1) (fun _ l => l) (Or.inl (by norm_num))).2.1,
    (C8_train_preconditions exNet [] 1 5 (-1) (fun _ l => l) (Or.inl (by norm_num))).2.2.1,
    (C8_train_preconditions exNet [] 1 5 (-1) (fun _ l => l) (Or.inl (by norm_num))).2.2.2⟩

/-- Claim C1 (refuted by the code): NeuralNetwork.feedforward seeds the
input layer (z := np.array([]), a := x) but then invokes layer.feedforward
with prev_layer.a — the activation ndarray itself — as the prev_layer
argument (network.py 45-48), while the method body (layers.py 60) reads
prev_layer.a from that argument; the very first layer call therefore raises
AttributeError, and no FullyConnectedLayer ever holds z = W·a_prev + b. -/
theorem C1_feedforward_crashes :
    (NeuralNetwork.feedforward exNet exX).2 = some PyErr.attributeError
      ∧ (NeuralNetwork.feedforward exNet exX).1.input_a = exX
      ∧ (NeuralNetwork.feedforward exNet exX).1.input_z = NDA.emptyArr :=
  ⟨rfl, rfl, rfl⟩

/-- Claim C2 (refuted by the code): NeuralNetwork.backpropagate crashes on
the first observation of any batch: its self.feedforward(x) call raises
AttributeError (see C1) before any error is formed, leaving the weights and
biases unchanged; moreover the reverse-walk call it would then make,
layer.backpropagate(input_z, input_a, input_w, delta_zlp) (network.py 77),
passes four positional arguments to a three-parameter method, which raises
TypeError. -/
theorem C2_backpropagate_crashes :
    (NeuralNetwork.backpropagate exNet [(exX, exY)] 1).2 = some PyErr.attributeError
      ∧ (NeuralNetwork.backpropagate exNet [(exX, exY)] 1).1.input_weights
          = exNet.input_weights
      ∧ (NeuralNetwork.backpropagate exNet [(exX, exY)] 1).1.input_biases
          = exNet.input_biases
      ∧ FullyConnectedLayer.backpropagateCall exLayer
          [PyObj.ndarray exX, PyObj.ndarray exX, PyObj.matrix (arr2Zero 1 1),
            PyObj.ndarray exX] = .error PyErr.typeError :=
  ⟨rfl, rfl, rfl, rfl⟩

theorem initGo_err (rng : Nat → GaussCall → Nat → Nat → ℚ) (prev : LayerDef)
    (layers : List LayerDef) (k : Nat)
    (h : ∃ l ∈ layers, l.isFullyConnected = false) :
    initGo rng prev layers k = .error .notImplementedError := by
  revert h
  induction layers generalizing prev k with
  | nil => intro h; simp at h
  | cons l rest ih =>
    intro h
    obtain ⟨l2, hmem, hfc⟩ := h
    rcases List.mem_cons.mp hmem with rfl | hmem2
    · cases l2 with
      | fullyConnected w h2 => simp [LayerDef.isFullyConnected] at hfc
      | inputL h2 w2 => simp [initGo]
      | convolutional d h2 w2 k2 => simp [initGo]
      | polling d h2 w2 ws => simp [initGo]
    · cases l with
      | fullyConnected w h2 =>
        have hrec := ih (LayerDef.fullyConnected w h2) (k + 2) ⟨l2, hmem2, hfc⟩
        simp [initGo, hrec]
      | inputL h2 w2 => simp [initGo]
      | convolutional d h2 w2 k2 => simp [initGo]
      | polling d h2 w2 ws => simp [initGo]

theorem initGo_ok (rng : Nat → GaussCall → Nat → Nat → ℚ) (prev : LayerDef)
    (layers : List LayerDef) (k : Nat)
    (h : ∀ l ∈ layers, l.isFullyConnected = true) :
    ∃ ws bs, initGo rng prev layers k = .ok (ws, bs)
      ∧ ws.length = layers.length ∧ bs.length = layers.length
      ∧ (∀ i, i < layers.length →
          ws.getD i (arr2Zero 0 0)
            = ⟨(layers.getD i (LayerDef.inputL 0 0)).num_neurons_out,
               (fanIns prev layers).getD i 0,
               rng (k + 2 * i) ⟨0, (fanIns prev layers).getD i 0,
                 (layers.getD i (LayerDef.inputL 0 0)).num_neurons_out,
                 (fanIns prev layers).getD i 0⟩⟩
          ∧ bs.getD i (arr2Zero 0 0)
            = ⟨(layers.getD i (LayerDef.inputL 0 0)).num_neurons_out, 1,
               rng (k + 2 * i + 1) ⟨0, (fanIns prev layers).getD i 0,
                 (layers.getD i (LayerDef.inputL 0 0)).num_neurons_out, 1⟩⟩) := by
  revert h
  induction layers generalizing prev k with
  | nil =>
    intro h
    exact ⟨[], [], rfl, rfl, rfl, fun i hi => absurd hi (by simp)⟩
  | cons l rest ih =>
    intro h
    have hl := h l (List.mem_cons_self l rest)
    cases l with
    | inputL h2 w2 => simp [LayerDef.isFullyConnected] at hl
    | convolutional d h2 w2 k2 => simp [LayerDef.isFullyConnected] at hl
    | polling d h2 w2 ws2 => simp [LayerDef.isFullyConnected] at hl
    | fullyConnected w2 h2 =>
      obtain ⟨ws, bs, heq, hlw, hlb, hidx⟩ :=
        ih (LayerDef.fullyConnected w2 h2) (k + 2)
          (fun l2 hm => h l2 (List.mem_cons_of_mem _ hm))
      refine ⟨(⟨(LayerDef.fullyConnected w2 h2).num_neurons_out, prev.num_neurons_out,
          rng k ⟨0, prev.num_neurons_out, (LayerDef.fullyConnected w2 h2).num_neurons_out,
            prev.num_neurons_out⟩⟩ : Arr2) :: ws,
        (⟨(LayerDef.fullyConnected w2 h2).num_neurons_out, 1,
          rng (k + 1) ⟨0, prev.num_neurons_out,
            (LayerDef.fullyConnected w2 h2).num_neurons_out, 1⟩⟩ : Arr2) :: bs,
        ?_, by simpa using hlw, by simpa using hlb, ?_⟩
      · simp [initGo, heq]
      · intro i hi
        cases i with
        | zero =>
          constructor
          · simp [fanIns]
          · simp [fanIns]
        | succ i2 =>
          have hi2 : i2 < rest.length := by simpa using hi
          have hrec := hidx i2 hi2
          constructor
          · have e1 : k + 2 + 2 * i2 = k + 2 * (i2 + 1) := by ring
            simpa [fanIns, e1] using hrec.1
          · have e2 : k + 2 + 2 * i2 + 1 = k + 2 * (i2 + 1) + 1 := by ring
            simpa [fanIns, e2] using hrec.2

/-- Claim C9: constructing a NeuralNetwork whose layer list contains any
non-FullyConnected layer fails with NotImplementedError at construction
time; when all layers are FullyConnected, each layer gets exactly one
weight array of shape (num_neurons_out, prev.num_neurons_out) and one bias
array of shape (num_neurons_out, 1), each drawn from the Gaussian stream
with mean 0 and standard deviation 1/sqrt(prev.num_neurons_out) (the
GaussCall parameters of the draw). -/
theorem C9_network_construction (input_layer : LayerDef) (layers : List LayerDef)
    (rng : Nat → GaussCall → Nat → Nat → ℚ) :
    ((∃ l ∈ layers, l.isFullyConnected = false) →
        NeuralNetwork.paramsInit input_layer layers rng = .error .notImplementedError)
      ∧ ((∀ l ∈ layers, l.isFullyConnected = true) →
          ∃ ws bs, NeuralNetwork.paramsInit input_layer layers rng = .ok (ws, bs)
            ∧ ws.length = layers.length ∧ bs.length = layers.length
            ∧ (∀ i, i < layers.length →
                ws.getD i (arr2Zero 0 0)
                  = ⟨(layers.getD i (LayerDef.inputL 0 0)).num_neurons_out,
                     (fanIns input_layer layers).getD i 0,
                     rng (2 * i) ⟨0, (fanIns input_layer layers).getD i 0,
                       (layers.getD i (LayerDef.inputL 0 0)).num_neurons_out,
                       (fanIns input_layer layers).getD i 0⟩⟩
                ∧ bs.getD i (arr2Zero 0 0)
                  = ⟨(layers.getD i (LayerDef.inputL 0 0)).num_neurons_out, 1,
                     rng (2 * i + 1) ⟨0, (fanIns input_layer layers).getD i 0,
                       (layers.getD i (LayerDef.inputL 0 0)).num_neurons_out, 1⟩⟩)) := by
  constructor
  · intro h
    exact initGo_err rng input_layer layers 0 h
  · intro h
    obtain ⟨ws, bs, heq, h1, h2, h3⟩ := initGo_ok rng input_layer layers 0 h
    refine ⟨ws, bs, heq, h1, h2, ?_⟩
    intro i hi
    have hrec := h3 i hi
    simpa using hrec

theorem C9_witness :
    (∃ l ∈ [LayerDef.convolutional 1 2 2 1], l.isFullyConnected = false)
      ∧ NeuralNetwork.paramsInit (LayerDef.inputL 2 2) [LayerDef.convolutional 1 2 2 1]
          (fun _ _ _ _ => 0) = .error .notImplementedError
      ∧ (∀ l ∈ [LayerDef.fullyConnected 2 3], l.isFullyConnected = true)
      ∧ (∃ ws bs,
          NeuralNetwork.paramsInit (LayerDef.inputL 2 2) [LayerDef.fullyConnected 2 3]
            (fun _ _ _ _ => 0) = .ok (ws, bs)
          ∧ ws.length = 1 ∧ bs.length = 1) := by
  refine ⟨by decide, ?_, by decide, ?_⟩
  · exact (C9_network_construction (LayerDef.inputL 2 2) [LayerDef.convolutional 1 2 2 1]
      (fun _ _ _ _ => 0)).1 (by decide)
  · obtain ⟨ws, bs, heq, h1, h2, _⟩ := (C9_network_construction (LayerDef.inputL 2 2)
      [LayerDef.fullyConnected 2 3] (fun _ _ _ _ => 0)).2 (by decide)
    exact ⟨ws, bs, heq, by simpa using h1, by simpa using h2⟩

theorem ite_and_zero {A B : Prop} [Decidable A] [Decidable B] (t : ℚ) :
    (if A ∧ B then t else 0) = if A then (if B then t else 0) else 0 := by
  by_cases hA : A <;> by_cases hB : B <;> simp [hA, hB]

/-- Valid-mode scipy convolution, evaluated at channel position 0 when the
kernel spans the full channel axis: it is the flipped-kernel window
product. -/
theorem convolveValid3_at (a w : Arr3) (y x2 : Nat)
    (h0 : w.d0 = a.d0) (h1 : 1 ≤ w.d1) (h2 : 1 ≤ w.d2)
    (hy : y + w.d1 ≤ a.d1) (hx : x2 + w.d2 ≤ a.d2) :
    (convolveValid3 a w).v 0 y x2
      = sumR a.d0 fun p => sumR w.d1 fun q => sumR w.d2 fun s =>
          a.v p (y + q) (x2 + s) * w.v (a.d0 - 1 - p) (w.d1 - 1 - q) (w.d2 - 1 - s) := by
  simp only [convolveValid3, convolveFull3]
  apply sumR_congr
  intro m0 hm0
  have stepA : ∀ m1 : Nat, sumR a.d2 (fun m2 =>
      if m0 ≤ 0 + (w.d0 - 1) ∧ 0 + (w.d0 - 1) - m0 < w.d0
          ∧ m1 ≤ y + (w.d1 - 1) ∧ y + (w.d1 - 1) - m1 < w.d1
          ∧ m2 ≤ x2 + (w.d2 - 1) ∧ x2 + (w.d2 - 1) - m2 < w.d2
        then a.v m0 m1 m2 * w.v (0 + (w.d0 - 1) - m0) (y + (w.d1 - 1) - m1)
          (x2 + (w.d2 - 1) - m2)
        else 0)
      = (if y ≤ m1 ∧ m1 - y < w.d1 then sumR a.d2 (fun m2 =>
          if x2 ≤ m2 ∧ m2 - x2 < w.d2 then
            a.v m0 m1 m2 * w.v (0 + (w.d0 - 1) - m0) (y + (w.d1 - 1) - m1)
              (x2 + (w.d2 - 1) - m2) else 0) else 0) := by
    intro m1
    rw [← sumR_ite_const]
    apply sumR_congr
    intro m2 _
    have hguard : (m0 ≤ 0 + (w.d0 - 1) ∧ 0 + (w.d0 - 1) - m0 < w.d0
        ∧ m1 ≤ y + (w.d1 - 1) ∧ y + (w.d1 - 1) - m1 < w.d1
        ∧ m2 ≤ x2 + (w.d2 - 1) ∧ x2 + (w.d2 - 1) - m2 < w.d2)
        ↔ ((y ≤ m1 ∧ m1 - y < w.d1) ∧ (x2 ≤ m2 ∧ m2 - x2 < w.d2)) := by
      constructor
      · intro hga
        exact ⟨⟨by omega, by omega⟩, ⟨by omega, by omega⟩⟩
      · intro hgb
        refine ⟨by omega, by omega, by omega, by omega, by omega, by omega⟩
    rw [if_congr hguard rfl rfl, ite_and_zero]
  have big1 := sumR_congr (n := a.d1) (fun m1 _ => stepA m1)
  rw [big1, sumR_window a.d1 y w.d1 _ hy]
  apply sumR_congr
  intro q hq
  rw [sumR_window a.d2 x2 w.d2 _ hx]
  apply sumR_congr
  intro s hs
  have e1 : 0 + (w.d0 - 1) - m0 = a.d0 - 1 - m0 := by omega
  have e2 : y + (w.d1 - 1) - (y + q) = w.d1 - 1 - q := by omega
  have e3 : x2 + (w.d2 - 1) - (x2 + s) = w.d2 - 1 - s := by omega
  rw [e1, e2, e3]

/-- Claim C3 as stated fails on the code: scipy.signal.convolve flips the
kernel, so at this input the computed pre-activation entry is 0 while the
claimed valid-mode cross-correlation entry is 1. -/
theorem C3_counterexample :
    ((exConvL.feedforward exPrevShape exA3 exW3 exB3).map
        (fun za => za.1.v 0 0 0 0)).getD 42 = 0
      ∧ (crossCorrelationZ exA3 exW3 exB3).v 0 0 0 0 = 1 := by
  constructor
  · norm_num [exConvL, exPrevShape, exA3, exW3, exB3, ConvolutionalLayer.make,
      ConvolutionalLayer.feedforward, convolveValid3, convolveFull3, Arr4.slice0,
      Arr4.shapeList, Arr2.shapeList, sumR, List.range_succ]
  · norm_num [exA3, exW3, exB3, crossCorrelationZ, sumR, List.range_succ]

/-- Claim C3 (amended): each output channel's pre-activation is the
valid-mode CONVOLUTION of the channel's weight tensor against the entire
input stack — the cross-correlation with the kernel flipped along the
channel axis and both spatial axes — plus the channel bias broadcast over
the feature map; output spatial size is input size minus kernel size plus 1
along each spatial axis, and a is the elementwise activation of z. -/
theorem C3_conv_feedforward (L : ConvolutionalLayer) (prev : LayerShape) (prev_a : Arr3)
    (input_w : Arr4) (input_b : Arr2)
    (hw : input_w.shapeList = [L.depth, prev.depth, L.kernel_size, L.kernel_size])
    (hb : input_b.shapeList = [L.depth, 1])
    (ha : prev_a.d0 = prev.depth)
    (hk : 1 ≤ L.kernel_size) :
    ∃ z a, L.feedforward prev prev_a input_w input_b = some (z, a)
      ∧ z.shapeList = [L.depth, 1, prev_a.d1 + 1 - L.kernel_size,
          prev_a.d2 + 1 - L.kernel_size]
      ∧ (∀ r y x2, y < prev_a.d1 + 1 - L.kernel_size →
          x2 < prev_a.d2 + 1 - L.kernel_size →
          z.v r 0 y x2
            = (sumR prev_a.d0 fun p => sumR L.kernel_size fun q =>
                sumR L.kernel_size fun s =>
                  prev_a.v p (y + q) (x2 + s)
                    * input_w.v r (prev_a.d0 - 1 - p) (L.kernel_size - 1 - q)
                        (L.kernel_size - 1 - s))
              + input_b.v r 0)
      ∧ (∀ r t y x2, a.v r t y x2 = L.act_func (z.v r t y x2)) := by
  have hw2 := hw
  simp only [Arr4.shapeList, List.cons.injEq, and_true] at hw2
  obtain ⟨e0, e1, e2, e3⟩ := hw2
  unfold ConvolutionalLayer.feedforward
  rw [if_pos ⟨hw, hb⟩]
  refine ⟨_, _, rfl, ?_, ?_, fun r t y x2 => rfl⟩
  · have hone : prev_a.d0 + 1 - input_w.d1 = 1 := by omega
    simp [Arr4.shapeList, e2, e3, hone]
  · intro r y x2 hy hx
    show (convolveValid3 prev_a (input_w.slice0 r)).v 0 y x2 + input_b.v r 0 = _
    rw [convolveValid3_at prev_a (input_w.slice0 r) y x2 (by simp [Arr4.slice0]; omega)
      (by simp [Arr4.slice0]; omega) (by simp [Arr4.slice0]; omega)
      (by simp [Arr4.slice0]; omega) (by simp [Arr4.slice0]; omega)]
    simp only [Arr4.slice0, e2, e3]

theorem C3_witness :
    exW3.shapeList = [exConvL.depth, exPrevShape.depth, exConvL.kernel_size,
        exConvL.kernel_size]
      ∧ exB3.shapeList = [exConvL.depth, 1]
      ∧ exA3.d0 = exPrevShape.depth
      ∧ 1 ≤ exConvL.kernel_size
      ∧ (∃ z a, exConvL.feedforward exPrevShape exA3 exW3 exB3 = some (z, a)
          ∧ z.shapeList = [exConvL.depth, 1, exA3.d1 + 1 - exConvL.kernel_size,
              exA3.d2 + 1 - exConvL.kernel_size]
          ∧ (∀ r y x2, y < exA3.d1 + 1 - exConvL.kernel_size →
              x2 < exA3.d2 + 1 - exConvL.kernel_size →
              z.v r 0 y x2
                = (sumR exA3.d0 fun p => sumR exConvL.kernel_size fun q =>
                    sumR exConvL.kernel_size fun s =>
                      exA3.v p (y + q) (x2 + s)
                        * exW3.v r (exA3.d0 - 1 - p) (exConvL.kernel_size - 1 - q)
                            (exConvL.kernel_size - 1 - s))
                  + exB3.v r 0)
          ∧ (∀ r t y x2, a.v r t y x2 = exConvL.act_func (z.v r t y x2))) :=
  ⟨by decide, by decide, by decide, by decide,
    C3_conv_feedforward exConvL exPrevShape exA3 exW3 exB3 (by decide) (by decide)
      (by decide) (by decide)⟩

theorem blockStarts_le (H ws : Nat) (hws : ws ≠ 0) (hdvd : H % ws = 0) :
    ∀ m ∈ blockStarts H ws, m + ws ≤ H := by
  intro m hm
  unfold blockStarts at hm
  obtain ⟨i, hi, rfl⟩ := List.mem_map.mp hm
  have hiR : i < (H + ws - 1) / ws := List.mem_range.mp hi
  obtain ⟨t, rfl⟩ : ∃ t, H = ws * t := by
    refine ⟨H / ws, ?_⟩
    have hdm := Nat.div_add_mod H ws
    omega
  have hceil : (ws * t + ws - 1) / ws = t := by
    have hrw : ws * t + ws - 1 = ws * t + (ws - 1) := by omega
    rw [hrw, Nat.mul_add_div (by omega)]
    have hz : (ws - 1) / ws = 0 := Nat.div_eq_of_lt (by omega)
    omega
  rw [hceil] at hiR
  calc i * ws + ws = (i + 1) * ws := by ring
    _ ≤ t * ws := Nat.mul_le_mul_right ws (by omega)
    _ = ws * t := by ring

/-- Claim C10: after the convolutional forward on a prev activation of
shape (prev.depth, H, W), z and a are rank-4 of shape
(depth, 1, H - kernel + 1, W - kernel + 1); the layer's declared height and
width are never consulted (any declared values give the same result); and
this rank-4 shape is exactly what PollingLayer.feedforward's rank-4 assert
requires: the polling forward succeeds on it under its remaining asserts. -/
theorem C10_conv_output_rank (L : ConvolutionalLayer) (prev : LayerShape) (prev_a : Arr3)
    (input_w : Arr4) (input_b : Arr2) (pl : PollingLayer)
    (hw : input_w.shapeList = [L.depth, prev.depth, L.kernel_size, L.kernel_size])
    (hb : input_b.shapeList = [L.depth, 1])
    (ha : prev_a.d0 = prev.depth) :
    ∃ z a, L.feedforward prev prev_a input_w input_b = some (z, a)
      ∧ z.shapeList = [L.depth, 1, prev_a.d1 + 1 - L.kernel_size,
          prev_a.d2 + 1 - L.kernel_size]
      ∧ z.shapeList.length = 4
      ∧ a.shapeList = z.shapeList
      ∧ (∀ h2 w2 : Nat,
          ConvolutionalLayer.feedforward
            ⟨L.depth, h2, w2, L.kernel_size, L.stride_length, L.act_func, L.der_act_func⟩
            prev prev_a input_w input_b
            = L.feedforward prev prev_a input_w input_b)
      ∧ (L.depth = pl.depth → pl.window_size ≠ 0 → L.height % pl.window_size = 0 →
          L.width % pl.window_size = 0 →
          L.height ≤ prev_a.d1 + 1 - L.kernel_size →
          L.width ≤ prev_a.d2 + 1 - L.kernel_size →
          (pl.feedforward L a NDA.emptyArr NDA.emptyArr).isSome = true) := by
  have hw2 := hw
  simp only [Arr4.shapeList, List.cons.injEq, and_true] at hw2
  obtain ⟨e0, e1, e2, e3⟩ := hw2
  refine ⟨⟨L.depth, prev_a.d0 + 1 - input_w.d1, prev_a.d1 + 1 - input_w.d2,
      prev_a.d2 + 1 - input_w.d3,
      fun r t i j => (convolveValid3 prev_a (input_w.slice0 r)).v t i j + input_b.v r 0⟩,
    ⟨L.depth, prev_a.d0 + 1 - input_w.d1, prev_a.d1 + 1 - input_w.d2,
      prev_a.d2 + 1 - input_w.d3,
      fun r t i j => L.act_func ((convolveValid3 prev_a (input_w.slice0 r)).v t i j
        + input_b.v r 0)⟩, ?_, ?_, ?_, ?_, ?_, ?_⟩
  · unfold ConvolutionalLayer.feedforward
    rw [if_pos ⟨hw, hb⟩]
  · have hone : prev_a.d0 + 1 - input_w.d1 = 1 := by omega
    simp [Arr4.shapeList, e2, e3, hone]
  · rfl
  · rfl
  · exact fun h2 w2 => rfl
  · intro hpd hws hmodH hmodW hH hW
    unfold PollingLayer.feedforward
    rw [if_pos ?_]
    · rfl
    refine ⟨hpd, by decide, by decide, hws, hmodH, ?_, ?_⟩
    · intro m hm
      have hle := blockStarts_le L.height pl.window_size hws hmodH m hm
      simp only [e2]
      omega
    · intro n hn
      have hle := blockStarts_le L.width pl.window_size hws hmodW n hn
      simp only [e3]
      omega

theorem C10_witness :
    exW5.shapeList = [exConvL10.depth, exPrevShape5.depth, exConvL10.kernel_size,
        exConvL10.kernel_size]
      ∧ exB3.shapeList = [exConvL10.depth, 1]
      ∧ exA5.d0 = exPrevShape5.depth
      ∧ (∃ z a, exConvL10.feedforward exPrevShape5 exA5 exW5 exB3 = some (z, a)
          ∧ z.shapeList = [exConvL10.depth, 1, exA5.d1 + 1 - exConvL10.kernel_size,
              exA5.d2 + 1 - exConvL10.kernel_size]
          ∧ z.shapeList.length = 4
          ∧ a.shapeList = z.shapeList
          ∧ (∀ h2 w2 : Nat,
              ConvolutionalLayer.feedforward
                ⟨exConvL10.depth, h2, w2, exConvL10.kernel_size, exConvL10.stride_length,
                  exConvL10.act_func, exConvL10.der_act_func⟩
                exPrevShape5 exA5 exW5 exB3
                = exConvL10.feedforward exPrevShape5 exA5 exW5 exB3)
          ∧ (exConvL10.depth = exPollL10.depth → exPollL10.window_size ≠ 0 →
              exConvL10.height % exPollL10.window_size = 0 →
              exConvL10.width % exPollL10.window_size = 0 →
              exConvL10.height ≤ exA5.d1 + 1 - exConvL10.kernel_size →
              exConvL10.width ≤ exA5.d2 + 1 - exConvL10.kernel_size →
              (exPollL10.feedforward exConvL10 a NDA.emptyArr NDA.emptyArr).isSome
                = true)) :=
  ⟨by decide, by decide, by decide,
    C10_conv_output_rank exConvL10 exPrevShape5 exA5 exW5 exB3 exPollL10
      (by decide) (by decide) (by decide)⟩

/-- Claim C5: convolutional backpropagate returns a weight gradient of
exactly the forward weight tensor's shape, with der_W[r,t,h,v] the sum over
the spatial positions of the [v:height:stride, h:width:stride] slice of
products of the input feature map window and the corresponding (identically
sliced) error window, and a bias gradient of exactly the forward bias shape
whose entry per output channel is the sum of that channel's whole error
map. -/
theorem C5_conv_backpropagate (L : ConvolutionalLayer) (prev : LayerShape)
    (prev_a : Arr3) (input_w : Arr4) (delta_z : Arr4)
    (hdz : delta_z.d0 = L.depth)
    (hw : input_w.shapeList = [L.depth, prev.depth, L.kernel_size, L.kernel_size])
    (hd1 : prev.depth ≤ delta_z.d1)
    (hs : L.stride_length = 1)
    (hH1 : L.height ≤ prev_a.d1) (hH2 : L.height ≤ delta_z.d2)
    (hW1 : L.width ≤ prev_a.d2) (hW2 : L.width ≤ delta_z.d3) :
    ∃ der_w der_b dzl,
      L.backpropagate prev prev_a input_w delta_z = some (der_w, der_b, dzl)
      ∧ der_w.shapeList = input_w.shapeList
      ∧ (∀ r t h v, r < L.depth → t < prev.depth → h < L.kernel_size →
          v < L.kernel_size →
          der_w.v r t h v = sumR (L.height - v) fun i => sumR (L.width - h) fun j =>
            prev_a.v t (v + i) (h + j) * delta_z.v r t (v + i) (h + j))
      ∧ der_b.shapeList = [L.depth, 1]
      ∧ (∀ r, der_b.v r 0 = sumR delta_z.d1 fun t => sumR delta_z.d2 fun i =>
          sumR delta_z.d3 fun j => delta_z.v r t i j) := by
  unfold ConvolutionalLayer.backpropagate
  rw [if_pos hdz]
  refine ⟨_, _, _, rfl, rfl, ?_, rfl, fun r => rfl⟩
  intro r t h v hr ht hh hv
  have hlen1 : sliceLen v L.height L.stride_length prev_a.d1 = L.height - v := by
    unfold sliceLen
    rw [hs, min_eq_left hH1, Nat.add_sub_cancel, Nat.div_one]
  have hlen2 : sliceLen h L.width L.stride_length prev_a.d2 = L.width - h := by
    unfold sliceLen
    rw [hs, min_eq_left hW1, Nat.add_sub_cancel, Nat.div_one]
  dsimp only
  rw [if_pos ⟨ht, hr, hh, hv⟩]
  simp only [Arr2.sumAll, Arr2.elemMul, Arr2.slice, hlen1, hlen2]
  simp only [hs, Nat.mul_one]

theorem C5_witness :
    exDz5.d0 = exConvL5.depth
      ∧ exW5.shapeList = [exConvL5.depth, exPrevShape5.depth, exConvL5.kernel_size,
          exConvL5.kernel_size]
      ∧ exPrevShape5.depth ≤ exDz5.d1
      ∧ exConvL5.stride_length = 1
      ∧ exConvL5.height ≤ exA5.d1 ∧ exConvL5.height ≤ exDz5.d2
      ∧ exConvL5.width ≤ exA5.d2 ∧ exConvL5.width ≤ exDz5.d3
      ∧ (∃ der_w der_b dzl,
          exConvL5.backpropagate exPrevShape5 exA5 exW5 exDz5 = some (der_w, der_b, dzl)
          ∧ der_w.shapeList = exW5.shapeList
          ∧ (∀ r t h v, r < exConvL5.depth → t < exPrevShape5.depth →
              h < exConvL5.kernel_size → v < exConvL5.kernel_size →
              der_w.v r t h v = sumR (exConvL5.height - v) fun i =>
                sumR (exConvL5.width - h) fun j =>
                  exA5.v t (v + i) (h + j) * exDz5.v r t (v + i) (h + j))
          ∧ der_b.shapeList = [exConvL5.depth, 1]
          ∧ (∀ r, der_b.v r 0 = sumR exDz5.d1 fun t => sumR exDz5.d2 fun i =>
              sumR exDz5.d3 fun j => exDz5.v r t i j)) :=
  ⟨by decide, by decide, by decide, by decide, by decide, by decide, by decide, by decide,
    C5_conv_backpropagate exConvL5 exPrevShape5 exA5 exW5 exDz5 (by decide) (by decide)
      (by decide) (by decide) (by decide) (by decide) (by decide) (by decide)⟩

theorem pollBp_foldl (L : PollingLayer) (prev_a : Arr4) (bs : List (Nat × Nat × Nat))
    (g0 : Nat → Nat → Nat → Nat → ℚ) (t2 o p q : Nat) :
    (bs.foldl (pollBpStep L prev_a) g0) t2 o p q
      = g0 t2 o p q
        * ((bs.filter (fun b => pollCoversB L.window_size b t2 o p q)).map
            (fun b => pollFactor L prev_a b p q)).prod := by
  induction bs generalizing g0 with
  | nil => simp
  | cons b rest ih =>
    rw [List.foldl_cons, ih]
    obtain ⟨t, m, n⟩ := b
    by_cases hcov : t2 = t ∧ o = 0 ∧ m ≤ p ∧ p < m + L.window_size ∧ n ≤ q
        ∧ q < n + L.window_size
    · have hstep : pollBpStep L prev_a g0 (t, m, n) t2 o p q
          = g0 t2 o p q * pollFactor L prev_a (t, m, n) p q := by
        simp only [pollBpStep]
        rw [if_pos hcov]
        rfl
      have hfil : pollCoversB L.window_size (t, m, n) t2 o p q = true :=
        decide_eq_true hcov
      rw [hstep, List.filter_cons, if_pos hfil, List.map_cons, List.prod_cons]
      ring
    · have hstep : pollBpStep L prev_a g0 (t, m, n) t2 o p q = g0 t2 o p q := by
        simp only [pollBpStep]
        rw [if_neg hcov]
      have hfil : pollCoversB L.window_size (t, m, n) t2 o p q = false :=
        decide_eq_false hcov
      rw [hstep, List.filter_cons, if_neg (by simp [hfil])]

theorem filter_eq_of_nodup (l : List (Nat × Nat × Nat)) (a : Nat × Nat × Nat)
    (hnd : l.Nodup) (hmem : a ∈ l) :
    l.filter (fun b => decide (b = a)) = [a] := by
  induction l with
  | nil => simp at hmem
  | cons x rest ih =>
    rcases List.mem_cons.mp hmem with rfl | hmem2
    · rw [List.filter_cons, if_pos (by simp)]
      have hnotin : a ∉ rest := (List.nodup_cons.mp hnd).1
      have hnil : rest.filter (fun b => decide (b = a)) = [] := by
        apply List.filter_eq_nil_iff.mpr
        intro b hb
        simp only [decide_eq_true_eq]
        rintro rfl
        exact hnotin hb
      rw [hnil]
    · have hne : x ≠ a := by
        rintro rfl
        exact (List.nodup_cons.mp hnd).1 hmem2
      rw [List.filter_cons, if_neg (by simp [hne]), ih (List.nodup_cons.mp hnd).2 hmem2]

theorem blockStarts_count_eq (H ws : Nat) (hws : ws ≠ 0) (hdvd : H % ws = 0) :
    (H + ws - 1) / ws = H / ws := by
  obtain ⟨t, rfl⟩ : ∃ t, H = ws * t := by
    refine ⟨H / ws, ?_⟩
    have hdm := Nat.div_add_mod H ws
    omega
  have h1 : ws * t + ws - 1 = ws * t + (ws - 1) := by omega
  rw [h1, Nat.mul_add_div (by omega)]
  have hz : (ws - 1) / ws = 0 := Nat.div_eq_of_lt (by omega)
  have hc : ws * t / ws = t := Nat.mul_div_cancel_left t (by omega)
  omega

theorem mem_blockStarts_self (H ws p : Nat) (hws : ws ≠ 0) (hdvd : H % ws = 0)
    (hp : p < H) : p / ws * ws ∈ blockStarts H ws := by
  unfold blockStarts
  apply List.mem_map.mpr
  refine ⟨p / ws, List.mem_range.mpr ?_, rfl⟩
  rw [blockStarts_count_eq H ws hws hdvd]
  exact Nat.div_lt_div_of_lt_of_dvd (Nat.dvd_of_mod_eq_zero hdvd) hp

theorem blockStarts_nodup (H ws : Nat) : (blockStarts H ws).Nodup := by
  unfold blockStarts
  rcases Nat.eq_zero_or_pos ws with hz | hpos
  · subst hz
    simp [Nat.div_zero]
  · exact (List.nodup_range _).map (fun a b hab => Nat.eq_of_mul_eq_mul_right hpos hab)

theorem pollBlocks_nodup (count H W ws : Nat) : (pollBlocks count H W ws).Nodup := by
  unfold pollBlocks
  apply List.nodup_flatMap.mpr
  constructor
  · intro t ht
    apply List.nodup_flatMap.mpr
    constructor
    · intro m hm
      refine List.Nodup.map ?_ (blockStarts_nodup W ws)
      intro a b hab
      simpa using congrArg (fun z => z.2.2) hab
    · refine (blockStarts_nodup H ws).imp ?_
      intro a b hab x hxa hxb
      obtain ⟨n1, hn1, rfl⟩ := List.mem_map.mp hxa
      obtain ⟨n2, hn2, hx⟩ := List.mem_map.mp hxb
      have hba : b = a := by simpa using congrArg (fun z => z.2.1) hx
      exact hab hba.symm
  · refine (List.nodup_range count).imp ?_
    intro a b hab x hxa hxb
    obtain ⟨m1, hm1, hx1⟩ := List.mem_flatMap.mp hxa
    obtain ⟨n1, hn1, rfl⟩ := List.mem_map.mp hx1
    obtain ⟨m2, hm2, hx2⟩ := List.mem_flatMap.mp hxb
    obtain ⟨n2, hn2, hx⟩ := List.mem_map.mp hx2
    have hba : b = a := by simpa using congrArg (fun z => z.1) hx
    exact hab hba.symm

theorem covers_iff_eq (count H W ws : Nat) (hws : ws ≠ 0) (t p q : Nat)
    (b : Nat × Nat × Nat) (hb : b ∈ pollBlocks count H W ws) :
    (pollCoversB ws b t 0 p q = true) ↔ b = (t, p / ws * ws, q / ws * ws) := by
  obtain ⟨tb, m, n⟩ := b
  unfold pollBlocks at hb
  obtain ⟨t3, ht3, hmem2⟩ := List.mem_flatMap.mp hb
  obtain ⟨m2, hm2, hmem3⟩ := List.mem_flatMap.mp hmem2
  obtain ⟨n2, hn2, heq⟩ := List.mem_map.mp hmem3
  obtain ⟨rfl, rfl, rfl⟩ : t3 = tb ∧ m2 = m ∧ n2 = n := by
    simpa [Prod.ext_iff] using heq
  unfold blockStarts at hm2 hn2
  obtain ⟨i, hiR, rfl⟩ := List.mem_map.mp hm2
  obtain ⟨j, hjR, rfl⟩ := List.mem_map.mp hn2
  have hws0 : 0 < ws := Nat.pos_of_ne_zero hws
  unfold pollCoversB
  rw [decide_eq_true_eq]
  constructor
  · rintro ⟨rfl, -, h3, h4, h5, h6⟩
    have hip : i = p / ws := by
      refine (Nat.div_eq_of_lt_le h3 ?_).symm
      calc p < i * ws + ws := h4
        _ = (i + 1) * ws := by ring
    have hjq : j = q / ws := by
      refine (Nat.div_eq_of_lt_le h5 ?_).symm
      calc q < j * ws + ws := h6
        _ = (j + 1) * ws := by ring
    rw [hip, hjq]
  · intro hbe
    obtain ⟨h1, h2, h3⟩ : t3 = t ∧ i * ws = p / ws * ws ∧ j * ws = q / ws * ws := by
      simpa [Prod.ext_iff] using hbe
    subst h1
    refine ⟨rfl, rfl, ?_, ?_, ?_, ?_⟩
    · rw [h2]; exact Nat.div_mul_le_self p ws
    · rw [h2]
      calc p = ws * (p / ws) + p % ws := (Nat.div_add_mod p ws).symm
        _ < ws * (p / ws) + ws := Nat.add_lt_add_left (Nat.mod_lt p hws0) _
        _ = p / ws * ws + ws := by rw [Nat.mul_comm]
    · rw [h3]; exact Nat.div_mul_le_self q ws
    · rw [h3]
      calc q = ws * (q / ws) + q % ws := (Nat.div_add_mod q ws).symm
        _ < ws * (q / ws) + ws := Nat.add_lt_add_left (Nat.mod_lt q hws0) _
        _ = q / ws * ws + ws := by rw [Nat.mul_comm]

theorem pollBlocks_filter_prod (L : PollingLayer) (prev_a : Arr4) (count H W : Nat)
    (hws : L.window_size ≠ 0) (hdH : H % L.window_size = 0)
    (hdW : W % L.window_size = 0)
    (t p q : Nat) (ht : t < count) (hp : p < H) (hq : q < W) :
    (((pollBlocks count H W L.window_size).filter
        (fun b => pollCoversB L.window_size b t 0 p q)).map
      (fun b => pollFactor L prev_a b p q)).prod
      = pollFactor L prev_a
          (t, p / L.window_size * L.window_size, q / L.window_size * L.window_size)
          p q := by
  have hcongr : (pollBlocks count H W L.window_size).filter
        (fun b => pollCoversB L.window_size b t 0 p q)
      = (pollBlocks count H W L.window_size).filter
        (fun b => decide (b = (t, p / L.window_size * L.window_size,
          q / L.window_size * L.window_size))) := by
    apply List.filter_congr
    intro b hb
    have h := covers_iff_eq count H W L.window_size hws t p q b hb
    unfold pollCoversB at h ⊢
    rw [decide_eq_true_eq] at h
    exact decide_eq_decide.mpr h
  have hmem : (t, p / L.window_size * L.window_size, q / L.window_size * L.window_size)
      ∈ pollBlocks count H W L.window_size := by
    unfold pollBlocks
    apply List.mem_flatMap.mpr
    refine ⟨t, List.mem_range.mpr ht, ?_⟩
    apply List.mem_flatMap.mpr
    refine ⟨p / L.window_size * L.window_size,
      mem_blockStarts_self H L.window_size p hws hdH hp, ?_⟩
    apply List.mem_map.mpr
    exact ⟨q / L.window_size * L.window_size,
      mem_blockStarts_self W L.window_size q hws hdW hq, rfl⟩
  rw [hcongr, filter_eq_of_nodup _ _ (pollBlocks_nodup count H W L.window_size) hmem]
  simp

/-- Claim C6: for a PollingLayer whose previous layer is a
ConvolutionalLayer of equal depth, given empty weights and a delta_z of
shape (depth, height, width), backpropagate returns empty weight and bias
gradients and a propagated error obtained by block-replicating delta_z
(Kronecker expansion with an all-ones window) up to the pre-pooling
resolution and multiplying each expanded entry by the matching entry of
der_poll_func applied to the original pre-pooled window of the previous
activation. -/
theorem C6_poll_backpropagate (L : PollingLayer) (prev : ConvolutionalLayer)
    (prev_a : Arr4) (input_w : NDA) (delta_z : Arr3)
    (hd : prev.depth = L.depth)
    (hwempty : input_w.size = 0)
    (hdz : delta_z.shapeList = [L.depth, L.height, L.width])
    (hws : L.window_size ≠ 0)
    (hH : L.height * L.window_size = prev.height)
    (hW : L.width * L.window_size = prev.width)
    (hpa2 : prev.height ≤ prev_a.d2)
    (hpa3 : prev.width ≤ prev_a.d3) :
    ∃ dzl, L.backpropagate prev prev_a input_w delta_z
        = some (NDA.emptyArr, NDA.emptyArr, dzl)
      ∧ dzl.shapeList = [prev.depth, 1, prev.height, prev.width]
      ∧ (∀ t p q, t < L.depth → p < prev.height → q < prev.width →
          dzl.v t 0 p q
            = delta_z.v t (p / L.window_size) (q / L.window_size)
              * (L.der_poll_func ⟨L.window_size, L.window_size,
                  fun i j => prev_a.v t 0 (p / L.window_size * L.window_size + i)
                    (q / L.window_size * L.window_size + j)⟩).v
                  (p % L.window_size) (q % L.window_size)) := by
  have hdz2 := hdz
  simp only [Arr3.shapeList, List.cons.injEq, and_true] at hdz2
  obtain ⟨f0, f1, f2⟩ := hdz2
  have hdH : prev.height % L.window_size = 0 := by
    rw [← hH]; exact Nat.mul_mod_left _ _
  have hdW : prev.width % L.window_size = 0 := by
    rw [← hW]; exact Nat.mul_mod_left _ _
  have hshape : ([delta_z.d0 * 1, 1, delta_z.d1 * L.window_size,
        delta_z.d2 * L.window_size] : List Nat)
      = [prev.depth, 1, prev.height, prev.width] := by
    rw [f0, f1, f2, Nat.mul_one, hH, hW, ← hd]
  have hwin2 : ∀ m ∈ blockStarts prev.height L.window_size,
      m + L.window_size ≤ prev_a.d2 := by
    intro m hm
    have hle := blockStarts_le prev.height L.window_size hws hdH m hm
    omega
  have hwin3 : ∀ n ∈ blockStarts prev.width L.window_size,
      n + L.window_size ≤ prev_a.d3 := by
    intro n hn
    have hle := blockStarts_le prev.width L.window_size hws hdW n hn
    omega
  refine ⟨⟨delta_z.d0 * 1, 1, delta_z.d1 * L.window_size, delta_z.d2 * L.window_size,
    (pollBlocks (min prev.depth L.depth) prev.height prev.width L.window_size).foldl
      (pollBpStep L prev_a)
      (fun t _ p q =>
        delta_z.v t (p / L.window_size) (q / L.window_size) * 1)⟩, ?_, ?_, ?_⟩
  · unfold PollingLayer.backpropagate
    rw [if_pos ⟨hd, hwempty, hdz, hws, hshape, hwin2, hwin3⟩]
  · simp only [Arr4.shapeList]
    exact hshape
  · intro t p q ht hp hq
    have ht2 : t < min prev.depth L.depth := by
      rw [hd, min_self]; exact ht
    show ((pollBlocks (min prev.depth L.depth) prev.height prev.width
        L.window_size).foldl (pollBpStep L prev_a)
        (fun t _ p q =>
          delta_z.v t (p / L.window_size) (q / L.window_size) * 1)) t 0 p q = _
    rw [pollBp_foldl, pollBlocks_filter_prod L prev_a (min prev.depth L.depth)
      prev.height prev.width hws hdH hdW t p q ht2 hp hq]
    have hpm : p - p / L.window_size * L.window_size = p % L.window_size := by
      have hdm := Nat.div_add_mod p L.window_size
      have hcomm : p / L.window_size * L.window_size
          = L.window_size * (p / L.window_size) := Nat.mul_comm _ _
      omega
    have hqm : q - q / L.window_size * L.window_size = q % L.window_size := by
      have hdm := Nat.div_add_mod q L.window_size
      have hcomm : q / L.window_size * L.window_size
          = L.window_size * (q / L.window_size) := Nat.mul_comm _ _
      omega
    unfold pollFactor
    dsimp only
    rw [hpm, hqm, mul_one]

theorem C6_witness :
    exConvL6.depth = exPollL6.depth
      ∧ NDA.emptyArr.size = 0
      ∧ exDz6.shapeList = [exPollL6.depth, exPollL6.height, exPollL6.width]
      ∧ exPollL6.window_size ≠ 0
      ∧ exPollL6.height * exPollL6.window_size = exConvL6.height
      ∧ exPollL6.width * exPollL6.window_size = exConvL6.width
      ∧ exConvL6.height ≤ exA6.d2
      ∧ exConvL6.width ≤ exA6.d3
      ∧ (∃ dzl, exPollL6.backpropagate exConvL6 exA6 NDA.emptyArr exDz6
            = some (NDA.emptyArr, NDA.emptyArr, dzl)
          ∧ dzl.shapeList = [exConvL6.depth, 1, exConvL6.height, exConvL6.width]
          ∧ (∀ t p q, t < exPollL6.depth → p < exConvL6.height → q < exConvL6.width →
              dzl.v t 0 p q
                = exDz6.v t (p / exPollL6.window_size) (q / exPollL6.window_size)
                  * (exPollL6.der_poll_func ⟨exPollL6.window_size, exPollL6.window_size,
                      fun i j => exA6.v t 0
                        (p / exPollL6.window_size * exPollL6.window_size + i)
                        (q / exPollL6.window_size * exPollL6.window_size + j)⟩).v
                      (p % exPollL6.window_size) (q % exPollL6.window_size))) :=
  ⟨by decide, by decide, by decide, by decide, by decide, by decide, by decide, by decide,
    C6_poll_backpropagate exPollL6 exConvL6 exA6 NDA.emptyArr exDz6 (by decide)
      (by decide) (by decide) (by decide) (by decide) (by decide) (by decide) (by decide)⟩
